import Mathlib

set_option maxRecDepth 2000

/-!
Shallow embedding of the grocery-backend repository's two core subsystems:

* the bulk CSV product-ingestion handler (`POST /products/upload-csv` in the
  server file), embedded as `Grocery.processRow` / `Grocery.processRows`;
* the daily expiry-notification cron job (the `cron.schedule` callback),
  embedded as `Grocery.cronScan` / `Grocery.cronRun`.

JavaScript string/number/date primitives used by the handler (`String.trim`,
`Number(...)`, `new Date(...)`, falsiness of strings, the case-insensitive
anchored-regexp duplicate lookup) are embedded as executable Lean functions on
`String` / `List Char`, restricted to the fragments the handler exercises
(decimal numerals, ISO `YYYY-MM-DD` dates, ASCII case folding), each noted in
its doc comment.  The persistent store is a `List Product`; `Product.create`
appends, `Product.find` returns the list.
-/

namespace Grocery

/-- JS whitespace test used by `trim` / `Number` coercion (ASCII whitespace
subset of the JS WhiteSpace/LineTerminator classes). -/
def isJsWs (c : Char) : Bool :=
  c = ' ' || c = '\t' || c = '\n' || c = '\r'

/-- Remove leading JS whitespace from a character list. -/
def trimL (l : List Char) : List Char := l.dropWhile isJsWs

/-- Remove trailing JS whitespace from a character list. -/
def trimR (l : List Char) : List Char := (trimL l.reverse).reverse

/-- Remove leading and trailing JS whitespace. -/
def jsTrimData (l : List Char) : List Char := trimR (trimL l)

/-- Embedding of JavaScript `String.prototype.trim` (ASCII whitespace). -/
def jsTrim (s : String) : String := ⟨jsTrimData s.data⟩

/-- Embedding of JavaScript `String.prototype.toLowerCase` (ASCII case
folding, matching the `i` regexp flag on ASCII names). -/
def jsLower (s : String) : String := ⟨s.data.map Char.toLower⟩

/-- Split a character list at every occurrence of `sep` (none of the
separators kept), by structural recursion. -/
def splitOnChar (sep : Char) : List Char → List (List Char)
  | [] => [[]]
  | c :: rest =>
    match splitOnChar sep rest with
    | [] => if c = sep then [[], []] else [[c]]
    | h :: t => if c = sep then [] :: h :: t else (c :: h) :: t

/-- Numeric value of a digit string, most significant digit first. -/
def natOfDigits (l : List Char) : Nat :=
  l.foldl (fun n c => n * 10 + (c.toNat - 48)) 0

/-- Embedding of JavaScript `Number(string)` restricted to the decimal
numerals the CSV handler receives: the input is trimmed; an empty remainder
coerces to `0`; an optional sign followed by `digits`, `digits.digits`,
`digits.` or `.digits` yields the denoted rational; anything else is `NaN`,
embedded as `none`.  (Exponent, hex and `Infinity` forms are outside the
modelled fragment.) -/
def jsNumber? (s : String) : Option Rat :=
  let t := jsTrimData s.data
  match t with
  | [] => some 0
  | _ =>
    let su : Rat × List Char :=
      match t with
      | '-' :: r => (-1, r)
      | '+' :: r => (1, r)
      | _ => (1, t)
    match splitOnChar '.' su.2 with
    | [ip] =>
      if !ip.isEmpty && ip.all Char.isDigit then
        some (su.1 * (natOfDigits ip : Rat))
      else none
    | [ip, fp] =>
      if (!ip.isEmpty || !fp.isEmpty) && ip.all Char.isDigit && fp.all Char.isDigit then
        some (su.1 * ((natOfDigits ip : Rat) + (natOfDigits fp : Rat) / (10 : Rat) ^ fp.length))
      else none
    | _ => none

/-- Gregorian leap-year test. -/
def isLeapYear (y : Int) : Bool :=
  (y % 4 == 0 && y % 100 != 0) || y % 400 == 0

/-- Number of days in a month of a given year. -/
def daysInMonth (y m : Int) : Int :=
  if m = 2 then (if isLeapYear y then 29 else 28)
  else if m = 4 ∨ m = 6 ∨ m = 9 ∨ m = 11 then 30
  else 31

/-- Days since the Unix epoch of a civil (proleptic Gregorian) date, via the
standard era decomposition, with floor division. -/
def daysFromCivil (y m d : Int) : Int :=
  let y2 : Int := if m ≤ 2 then y - 1 else y
  let era : Int := Int.fdiv y2 400
  let yoe : Int := y2 - era * 400
  let mp : Int := if m > 2 then m - 3 else m + 9
  let doy : Int := Int.fdiv (153 * mp + 2) 5 + d - 1
  let doe : Int := yoe * 365 + Int.fdiv yoe 4 - Int.fdiv yoe 100 + doy
  era * 146097 + doe - 719468

/-- Embedding of `new Date(string)` followed by the `isNaN(getTime())`
validity check, restricted to the ISO `YYYY-MM-DD` date-only format the CSV
handler documents (`use YYYY-MM-DD`): a valid date yields its UTC timestamp
in milliseconds, an invalid string yields `none`. -/
def jsDate? (s : String) : Option Int :=
  match splitOnChar '-' s.data with
  | [ys, ms, ds] =>
    if ys.length == 4 && ms.length == 2 && ds.length == 2 &&
        ys.all Char.isDigit && ms.all Char.isDigit && ds.all Char.isDigit then
      let y : Int := (natOfDigits ys : Nat)
      let m : Int := (natOfDigits ms : Nat)
      let d : Int := (natOfDigits ds : Nat)
      if 1 ≤ m ∧ m ≤ 12 ∧ 1 ≤ d ∧ d ≤ daysInMonth y m then
        some (daysFromCivil y m d * 86400000)
      else none
    else none
  | _ => none

/-- A stored product record (the `productSchema` of `models/Product.js`);
`expiryDate` is the stored timestamp in milliseconds. -/
structure Product where
  name : String
  category : String
  subcategory : String
  quantity : Rat
  weight : Option Rat
  price : Rat
  expiryDate : Int
  notifyBeforeDays : Rat
  deriving DecidableEq

/-- A registered notification endpoint (the `User` model): an FCM token. -/
structure User where
  fcmToken : String
  deriving DecidableEq

/-- One parsed CSV data row as produced by `csv-parser` plus the handler's
`lineNumber` tag: each cell is a string when the column is present
(`some ""` for an empty cell) and `none` when the column is absent
(JS `undefined`). -/
structure CsvRow where
  name : Option String
  category : Option String
  subcategory : Option String
  quantity : Option String
  weight : Option String
  price : Option String
  expiryDate : Option String
  notifyBeforeDays : Option String
  lineNumber : Nat
  deriving DecidableEq

/-- JS falsiness of an optional string cell: `undefined` and `""` are falsy,
every other string is truthy. -/
def falsy : Option String → Bool
  | none => true
  | some s => s.data.isEmpty

/-- The row's validated data, as destructured by the handler just before the
duplicate check: the raw `name` string plus the parsed numeric/date values. -/
structure Parsed where
  name : String
  category : Option String
  subcategory : Option String
  quantity : Rat
  weight : Option Rat
  price : Rat
  expiryDate : Int
  notifyBeforeDays : Rat
  line : Nat
  deriving DecidableEq

/-- The handler's missing-required-fields error message. -/
def missingMsg : String :=
  "Missing required fields (name, quantity, price, expiryDate, notifyBeforeDays)"

/-- The handler's invalid-number error message for quantity/price/notifyBeforeDays. -/
def numberMsg : String :=
  "Invalid number format for quantity, price, or notifyBeforeDays"

/-- The handler's invalid-number error message for weight. -/
def weightMsg : String :=
  "Invalid number format for weight"

/-- The handler's invalid-date error message. -/
def dateMsg : String :=
  "Invalid date format for expiryDate (use YYYY-MM-DD)"

/-- The handler's skip reason for duplicate rows. -/
def existsMsg : String :=
  "Product already exists"

/-- Date-validation step of the row pipeline (runs after the numeric checks,
mirroring the handler's order). -/
def finishRow (r : CsvRow) (q pr nd : Rat) (w : Option Rat) :
    Except (Nat × String) Parsed :=
  match jsDate? (r.expiryDate.getD "") with
  | none => .error (r.lineNumber, dateMsg)
  | some ms =>
    .ok { name := r.name.getD "", category := r.category, subcategory := r.subcategory,
          quantity := q, weight := w, price := pr, expiryDate := ms,
          notifyBeforeDays := nd, line := r.lineNumber }

/-- Store-independent validation of one CSV row, exactly in the handler's
order: field presence (JS falsiness for `name`, `quantity`, `expiryDate`,
`notifyBeforeDays`; definedness only for `price`), then `Number` coercion of
quantity/price/notifyBeforeDays, then of `weight` when truthy, then the date
check.  Returns the first failure's `(line, message)` or the parsed row. -/
def validateRow (r : CsvRow) : Except (Nat × String) Parsed :=
  if falsy r.name || falsy r.quantity || r.price.isNone ||
      falsy r.expiryDate || falsy r.notifyBeforeDays then
    .error (r.lineNumber, missingMsg)
  else
    match jsNumber? (r.quantity.getD ""), jsNumber? (r.price.getD ""),
        jsNumber? (r.notifyBeforeDays.getD "") with
    | some q, some pr, some nd =>
      if falsy r.weight then finishRow r q pr nd none
      else
        match jsNumber? (r.weight.getD "") with
        | none => .error (r.lineNumber, weightMsg)
        | some wv => finishRow r q pr nd (some wv)
    | _, _, _ => .error (r.lineNumber, numberMsg)

/-- Syntax of the modelled fragment of JS regular expressions. -/
inductive Regex where
  | fail
  | eps
  | char (c : Char)
  | anyChar
  | seq (r1 r2 : Regex)
  | alt (r1 r2 : Regex)
  | star (r : Regex)
  deriving DecidableEq

/-- Does the expression accept the empty string? -/
def nullable : Regex → Bool
  | .fail => false
  | .eps => true
  | .char _ => false
  | .anyChar => false
  | .seq r1 r2 => nullable r1 && nullable r2
  | .alt r1 r2 => nullable r1 || nullable r2
  | .star _ => true

/-- Brzozowski derivative of an expression by one character. -/
def rderiv (c : Char) : Regex → Regex
  | .fail => .fail
  | .eps => .fail
  | .char d => if d = c then .eps else .fail
  | .anyChar => .eps
  | .seq r1 r2 =>
    if nullable r1 then .alt (.seq (rderiv c r1) r2) (rderiv c r2)
    else .seq (rderiv c r1) r2
  | .alt r1 r2 => .alt (rderiv c r1) (rderiv c r2)
  | .star r => .seq (rderiv c r) (.star r)

/-- Derivative-based acceptance of a whole string. -/
def regexAccepts (r : Regex) (l : List Char) : Bool :=
  nullable (l.foldl (fun acc c => rderiv c acc) r)

/-- The matching relation of the fragment. -/
inductive RMatch : Regex → List Char → Prop where
  | eps : RMatch .eps []
  | char (c : Char) : RMatch (.char c) [c]
  | any (c : Char) : RMatch .anyChar [c]
  | seq {r1 r2 : Regex} {s1 s2 : List Char} :
      RMatch r1 s1 → RMatch r2 s2 → RMatch (.seq r1 r2) (s1 ++ s2)
  | altL {r1 r2 : Regex} {s : List Char} : RMatch r1 s → RMatch (.alt r1 r2) s
  | altR {r1 r2 : Regex} {s : List Char} : RMatch r2 s → RMatch (.alt r1 r2) s
  | starNil {r : Regex} : RMatch (.star r) []
  | starCons {r : Regex} {s1 s2 : List Char} :
      RMatch r s1 → RMatch (.star r) s2 → RMatch (.star r) (s1 ++ s2)

/-- The regex denoting one literal string. -/
def literalRegex : List Char → Regex
  | [] => .eps
  | c :: rest => .seq (.char c) (literalRegex rest)

/-- Metacharacters of the modelled JS regex fragment; every other character
is a literal. -/
def isRegexMeta (c : Char) : Bool :=
  c = '(' || c = ')' || c = '|' || c = '*' || c = '+' || c = '?' || c = '.' ||
  c = '[' || c = ']' || c = '{' || c = '}' || c = '\\' || c = '^' || c = '$'

/-- Sequence the accumulated atoms (most recent first). -/
def concatOf (cur : List Regex) : Regex :=
  cur.foldl (fun acc r => .seq r acc) .eps

/-- Alternate the accumulated alternatives (most recent first). -/
def altsOf : List Regex → Regex
  | [] => .fail
  | r :: rest => rest.foldl (fun acc x => .alt x acc) r

/-- Single-pass compiler from a pattern string to a `Regex`: literals, `.`,
groups `(...)`, alternation `|` and the postfix quantifiers `*` `+` `?`;
`none` for constructs outside the fragment (classes, escapes, braces, inner
anchors) and for ill-formed patterns (stray `)` or quantifier, unclosed
group). -/
def compileAux : List Char → List (List Regex × List Regex) → List Regex → List Regex →
    Option Regex
  | [], stack, alts, cur =>
    match stack with
    | [] => some (altsOf (concatOf cur :: alts))
    | _ :: _ => none
  | c :: rest, stack, alts, cur =>
    if isRegexMeta c = false then compileAux rest stack alts (.char c :: cur)
    else if c = '.' then compileAux rest stack alts (.anyChar :: cur)
    else if c = '(' then compileAux rest ((alts, cur) :: stack) [] []
    else if c = ')' then
      match stack with
      | [] => none
      | (alts0, cur0) :: stack2 =>
        compileAux rest stack2 alts0 (altsOf (concatOf cur :: alts) :: cur0)
    else if c = '|' then compileAux rest stack (concatOf cur :: alts) []
    else if c = '*' then
      match cur with
      | [] => none
      | a :: cur2 => compileAux rest stack alts (.star a :: cur2)
    else if c = '+' then
      match cur with
      | [] => none
      | a :: cur2 => compileAux rest stack alts (.seq a (.star a) :: cur2)
    else if c = '?' then
      match cur with
      | [] => none
      | a :: cur2 => compileAux rest stack alts (.alt a .eps :: cur2)
    else none

/-- Compile a whole pattern. -/
def parseRegex (l : List Char) : Option Regex := compileAux l [] [] []

/-- Is every character of the pattern a literal? -/
def regexLiteral (l : List Char) : Bool := l.all fun c => !isRegexMeta c

/-- The duplicate lookup's comparison: the handler queries
`findOne(name: new RegExp("^" + name.trim() + "$", "i"))`, interpolating the
trimmed name UNESCAPED into the pattern.  We case-fold both sides (the `i`
flag on the ASCII names the fragment covers), compile the folded trimmed name
as a JS regular expression over the modelled fragment (literals, `.`, groups,
alternation, `*` `+` `?`), and — because of the `^...$` anchors — test whether
it accepts the whole folded stored name.  A pattern using constructs outside
the fragment (classes, escapes, braces, inner anchors) or that is ill-formed
is treated as matching nothing; no theorem quantifies over such names. -/
def nameMatches (rowName storedName : String) : Bool :=
  match parseRegex (jsLower (jsTrim rowName)).data with
  | some r => regexAccepts r (jsLower storedName).data
  | none => false

/-- Whether the store already holds a product matching the incoming name. -/
def dupB (store : List Product) (n : String) : Bool :=
  store.any fun p => nameMatches n p.name

/-- `category?.trim() || ''`: an absent optional string becomes `""`, a
present one is trimmed. -/
def optTrimmed : Option String → String
  | none => ""
  | some s => jsTrim s

/-- The record the handler passes to `Product.create` for a validated,
non-duplicate row: trimmed name, defaulted optional strings, parsed numbers
and date. -/
def mkProduct (v : Parsed) : Product :=
  { name := jsTrim v.name, category := optTrimmed v.category,
    subcategory := optTrimmed v.subcategory, quantity := v.quantity,
    weight := v.weight, price := v.price, expiryDate := v.expiryDate,
    notifyBeforeDays := v.notifyBeforeDays }

/-- Outcome of one row of the batch: pushed to `successfulProducts`,
`errors` (line and message) or `skipped` (line, raw name, reason). -/
inductive RowOutcome where
  | success (p : Product)
  | error (line : Nat) (msg : String)
  | skipped (line : Nat) (name : String) (reason : String)
  deriving DecidableEq

/-- One iteration of the handler's `for (const row of results)` loop:
validate, then the duplicate check against the live store, then create. -/
def processRow (store : List Product) (r : CsvRow) : RowOutcome × List Product :=
  match validateRow r with
  | .error e => (.error e.1 e.2, store)
  | .ok v =>
    if dupB store v.name then (.skipped v.line v.name existsMsg, store)
    else (.success (mkProduct v), store ++ [mkProduct v])

/-- The whole row loop: rows in file order, each against the store as left by
the previous rows; returns the outcome list (in row order) and final store. -/
def processRows (store : List Product) : List CsvRow → List RowOutcome × List Product
  | [] => ([], store)
  | r :: rest =>
    let step := processRow store r
    let next := processRows step.2 rest
    (step.1 :: next.1, next.2)

/-- Is the outcome a success? -/
def isSuccessO : RowOutcome → Bool
  | .success _ => true
  | _ => false

/-- Is the outcome an error? -/
def isErrorO : RowOutcome → Bool
  | .error _ _ => true
  | _ => false

/-- Is the outcome a skip? -/
def isSkippedO : RowOutcome → Bool
  | .skipped _ _ _ => true
  | _ => false

/-- `summary.successful` of the handler's response. -/
def countSuccess (outs : List RowOutcome) : Nat := outs.countP isSuccessO

/-- `summary.failed` of the handler's response. -/
def countError (outs : List RowOutcome) : Nat := outs.countP isErrorO

/-- `summary.skipped` of the handler's response. -/
def countSkipped (outs : List RowOutcome) : Nat := outs.countP isSkippedO

/-- One notification message handed to `admin.messaging().send`. -/
structure Attempt where
  token : String
  title : String
  body : String
  deriving DecidableEq

/-- Milliseconds per day, the divisor in the cron job's day computation. -/
def msPerDay : Rat := 1000 * 60 * 60 * 24

/-- `(new Date(p.expiryDate) - today) / (1000*60*60*24)` of the cron job:
real-valued days remaining. -/
def daysDiff (p : Product) (today : Int) : Rat :=
  ((p.expiryDate - today : Int) : Rat) / msPerDay

/-- The dispatched notification body:
`p.name + " " + Math.ceil(diff) + " din me expire hone wala hai"`. -/
def notifBody (p : Product) (today : Int) : String :=
  p.name ++ " " ++ toString (Rat.ceil (daysDiff p today)) ++ " din me expire hone wala hai"

/-- The message sent for one (product, user) pair. -/
def mkSend (today : Int) (p : Product) (u : User) : Attempt :=
  { token := u.fcmToken, title := "⚠️ Expiry Alert", body := notifBody p today }

/-- The cron job's eligibility test, in source order:
`diff <= p.notifyBeforeDays && diff > 0`. -/
def eligibleB (p : Product) (today : Int) : Bool :=
  decide (daysDiff p today ≤ p.notifyBeforeDays) && decide (0 < daysDiff p today)

/-- The inner `for (let u of users)` loop for one product: when the product
is eligible, one send is attempted per user; each send's failure is caught by
the per-send `try/catch` (the loop continues either way), so the run records
every attempt paired with its outcome (`true` = send succeeded).  `fails`
abstracts which concrete sends the transport rejects. -/
def productSends (fails : Attempt → Bool) (users : List User) (today : Int)
    (p : Product) : List (Attempt × Bool) :=
  if eligibleB p today then users.map fun u => (mkSend today p u, !fails (mkSend today p u))
  else []

/-- The outer `for (let p of products)` loop. -/
def cronScan (fails : Attempt → Bool) (users : List User) (today : Int) :
    List Product → List (Attempt × Bool)
  | [] => []
  | p :: ps => productSends fails users today p ++ cronScan fails users today ps

/-- One whole cron invocation: the `firebaseOk` guard (source:
`if (!firebaseInitialized) return;`) then the nested scan with `today`
captured once. -/
def cronRun (fails : Attempt → Bool) (firebaseOk : Bool) (products : List Product)
    (users : List User) (today : Int) : List (Attempt × Bool) :=
  if firebaseOk then cronScan fails users today products else []

/-! ### Sample data

Concrete rows and records used by the witness and counterexample theorems;
the three `milk1`/`milk2`/`bread` rows are the spec's Milk/Milk/Bread
scenario (CSV data lines 2, 3, 4). -/

/-- Build a row with only the five required columns present. -/
def sampleRow (n q p e nb : Option String) (line : Nat) : CsvRow :=
  { name := n, category := none, subcategory := none, quantity := q, weight := none,
    price := p, expiryDate := e, notifyBeforeDays := nb, lineNumber := line }

/-- Scenario row 1: valid Milk row. -/
def milk1 : CsvRow := sampleRow (some "Milk") (some "5") (some "2") (some "2099-01-01") (some "3") 2

/-- Scenario row 2: second Milk row, valid but a duplicate of row 1. -/
def milk2 : CsvRow := sampleRow (some "Milk") (some "1") (some "1") (some "2099-02-01") (some "1") 3

/-- Scenario row 3: Bread row with non-numeric quantity. -/
def bread : CsvRow := sampleRow (some "Bread") (some "abc") (some "1") (some "2099-01-01") (some "2") 4

/-- The parsed form of `milk1`. -/
def milk1Parsed : Parsed :=
  { name := "Milk", category := none, subcategory := none, quantity := 5, weight := none,
    price := 2, expiryDate := 4070908800000, notifyBeforeDays := 3, line := 2 }

/-- The parsed form of `milk2`. -/
def milk2Parsed : Parsed :=
  { name := "Milk", category := none, subcategory := none, quantity := 1, weight := none,
    price := 1, expiryDate := 4073587200000, notifyBeforeDays := 1, line := 3 }

/-- The record created for `milk1`. -/
def milkCreated : Product :=
  { name := "Milk", category := "", subcategory := "", quantity := 5, weight := none,
    price := 2, expiryDate := 4070908800000, notifyBeforeDays := 3 }

/-- A Milk row whose price cell is present but empty. -/
def milkEmptyPrice : CsvRow :=
  sampleRow (some "Milk") (some "5") (some "") (some "2099-01-01") (some "3") 2

/-- The record the handler creates for `milkEmptyPrice`: price coerced to 0. -/
def milkPriceZero : Product :=
  { name := "Milk", category := "", subcategory := "", quantity := 5, weight := none,
    price := 0, expiryDate := 4070908800000, notifyBeforeDays := 3 }

/-- A valid row except for a non-numeric price. -/
def priceBad : CsvRow := sampleRow (some "Rice") (some "5") (some "abc") (some "2099-01-01") (some "2") 2

/-- A row valid except for a non-numeric weight. -/
def weightBad : CsvRow :=
  { name := some "Cheese", category := none, subcategory := none, quantity := some "5",
    weight := some "x", price := some "1", expiryDate := some "2099-01-01",
    notifyBeforeDays := some "2", lineNumber := 5 }

/-- A stored record whose name contains regex metacharacters. -/
def mlkStored : Product :=
  { name := "Milk (2L)", category := "", subcategory := "", quantity := 1, weight := none,
    price := 1, expiryDate := 0, notifyBeforeDays := 1 }

/-- A valid row with the same metacharacter name as `mlkStored`. -/
def mlkRow : CsvRow :=
  sampleRow (some "Milk (2L)") (some "5") (some "2") (some "2099-01-01") (some "3") 2

/-- First valid row named "a+b" (regex quantifier in the name). -/
def abRow1 : CsvRow := sampleRow (some "a+b") (some "5") (some "2") (some "2099-01-01") (some "3") 2

/-- Second valid row named "a+b", differing in quantity. -/
def abRow2 : CsvRow := sampleRow (some "a+b") (some "1") (some "2") (some "2099-01-01") (some "3") 3

/-- A stored record with an untrimmed lowercase name. -/
def untrimmedStored : Product :=
  { name := " milk", category := "", subcategory := "", quantity := 1, weight := none,
    price := 1, expiryDate := 0, notifyBeforeDays := 1 }

/-- A clean Milk row used against `untrimmedStored`. -/
def milkPlain : CsvRow := sampleRow (some "milk") (some "5") (some "2") (some "2099-01-01") (some "3") 2

/-- The parsed form of `milkEmptyPrice`: price coerced to 0. -/
def mepParsed : Parsed :=
  { name := "Milk", category := none, subcategory := none, quantity := 5, weight := none,
    price := 0, expiryDate := 4070908800000, notifyBeforeDays := 3, line := 2 }

/-- The parsed form of `mlkRow`. -/
def mlkParsed : Parsed :=
  { name := "Milk (2L)", category := none, subcategory := none, quantity := 5, weight := none,
    price := 2, expiryDate := 4070908800000, notifyBeforeDays := 3, line := 2 }

/-- The parsed form of `abRow1`. -/
def abParsed1 : Parsed :=
  { name := "a+b", category := none, subcategory := none, quantity := 5, weight := none,
    price := 2, expiryDate := 4070908800000, notifyBeforeDays := 3, line := 2 }

/-- The parsed form of `abRow2`. -/
def abParsed2 : Parsed :=
  { name := "a+b", category := none, subcategory := none, quantity := 1, weight := none,
    price := 2, expiryDate := 4070908800000, notifyBeforeDays := 3, line := 3 }

/-- The record created for `abRow1`. -/
def abProd1 : Product :=
  { name := "a+b", category := "", subcategory := "", quantity := 5, weight := none,
    price := 2, expiryDate := 4070908800000, notifyBeforeDays := 3 }

/-- The record created for `abRow2`. -/
def abProd2 : Product :=
  { name := "a+b", category := "", subcategory := "", quantity := 1, weight := none,
    price := 2, expiryDate := 4070908800000, notifyBeforeDays := 3 }

/-- The parsed form of `milkPlain`. -/
def plainParsed : Parsed :=
  { name := "milk", category := none, subcategory := none, quantity := 5, weight := none,
    price := 2, expiryDate := 4070908800000, notifyBeforeDays := 3, line := 2 }

/-- A Milk row with no name column at all. -/
def noNameRow : CsvRow := sampleRow none (some "5") (some "2") (some "2099-01-01") (some "3") 2

/-- Scheduler example: product expiring 2.5 days after time 0, 3-day lead. -/
def twoPointFive : Product :=
  { name := "Doodh", category := "", subcategory := "", quantity := 1, weight := none,
    price := 1, expiryDate := 216000000, notifyBeforeDays := 3 }

/-- Same product with a 2-day lead window. -/
def twoPointFiveShort : Product := { twoPointFive with notifyBeforeDays := 2 }

/-- An already-expired product with a huge lead window. -/
def expiredLongLead : Product := { twoPointFive with expiryDate := -86400000, notifyBeforeDays := 1000000 }

/-- A sample registered device. -/
def tok1 : User := ⟨"token-1"⟩

/-! ### Helper lemmas about the row pipeline -/

/-- Substring containment (the "body contains ..." relation). -/
def strContains (s pat : String) : Prop := ∃ a b, s = a ++ (pat ++ b)

/-- Whether a row fails validation (store-independent). -/
def rowErrB (r : CsvRow) : Bool :=
  match validateRow r with
  | .error _ => true
  | .ok _ => false

/-- The outcome a second identical upload assigns to a row: its validation
error again, or a duplicate skip. -/
def secondOutcome (r : CsvRow) : RowOutcome :=
  match validateRow r with
  | .error e => .error e.1 e.2
  | .ok v => .skipped v.line v.name existsMsg

/-- Neither end of the list is whitespace. -/
def noWsEdge (l : List Char) : Prop :=
  (∀ a t, l = a :: t → isJsWs a = false) ∧ (∀ a t, l.reverse = a :: t → isJsWs a = false)

/-- Every stored name is its own trim (true of every ingestion-created record). -/
def storeTrimmed (S : List Product) : Prop := ∀ p ∈ S, jsTrim p.name = p.name

/-- No two stored records have case-insensitively equal trimmed names. -/
def storeCaselessDistinct (S : List Product) : Prop :=
  S.Pairwise fun p q => jsLower (jsTrim p.name) ≠ jsLower (jsTrim q.name)

/-! ### Correctness of the regular-expression engine -/

/-- `nullable` decides empty-string membership. -/
lemma nullable_iff (r : Regex) : nullable r = true ↔ RMatch r [] := by
  induction r with
  | fail => exact ⟨fun h => absurd h (by simp [nullable]), fun h => nomatch h⟩
  | eps => exact ⟨fun _ => RMatch.eps, fun _ => rfl⟩
  | char c => exact ⟨fun h => absurd h (by simp [nullable]), fun h => nomatch h⟩
  | anyChar => exact ⟨fun h => absurd h (by simp [nullable]), fun h => nomatch h⟩
  | seq r1 r2 ih1 ih2 =>
    constructor
    · intro h
      rw [nullable, Bool.and_eq_true, ih1, ih2] at h
      exact RMatch.seq h.1 h.2
    · intro h
      generalize ht : ([] : List Char) = t at h
      cases h with
      | seq h1 h2 =>
        rename_i s1 s2
        obtain ⟨e1, e2⟩ := List.append_eq_nil.mp ht.symm
        subst e1; subst e2
        rw [nullable, Bool.and_eq_true, ih1, ih2]
        exact ⟨h1, h2⟩
  | alt r1 r2 ih1 ih2 =>
    constructor
    · intro h
      rw [nullable, Bool.or_eq_true, ih1, ih2] at h
      exact h.elim RMatch.altL RMatch.altR
    · intro h
      rw [nullable, Bool.or_eq_true, ih1, ih2]
      cases h with
      | altL h1 => exact Or.inl h1
      | altR h2 => exact Or.inr h2
  | star r ih => exact ⟨fun _ => RMatch.starNil, fun _ => rfl⟩

/-- Soundness of the derivative: a match of the derivative extends to a match. -/
lemma rderiv_sound (c : Char) :
    ∀ (r : Regex) {s : List Char}, RMatch (rderiv c r) s → RMatch r (c :: s) := by
  intro r
  induction r with
  | fail => intro s h; exact nomatch h
  | eps => intro s h; exact nomatch h
  | char d =>
    intro s h
    rw [rderiv] at h
    by_cases hd : d = c
    · rw [if_pos hd] at h
      cases h
      rw [hd]
      exact RMatch.char c
    · rw [if_neg hd] at h
      exact nomatch h
  | anyChar =>
    intro s h
    cases h
    exact RMatch.any c
  | seq r1 r2 ih1 ih2 =>
    intro s h
    rw [rderiv] at h
    by_cases hn : nullable r1 = true
    · rw [if_pos hn] at h
      cases h with
      | altL h1 =>
        generalize hu : s = u at h1
        cases h1 with
        | seq ha hb =>
          rename_i s1 s2
          subst hu
          have := RMatch.seq (ih1 ha) hb
          rwa [List.cons_append] at this
      | altR h2 =>
        have h0 : RMatch r1 [] := (nullable_iff r1).mp hn
        have := RMatch.seq h0 (ih2 h2)
        rwa [List.nil_append] at this
    · rw [if_neg hn] at h
      generalize hu : s = u at h
      cases h with
      | seq ha hb =>
        rename_i s1 s2
        subst hu
        have := RMatch.seq (ih1 ha) hb
        rwa [List.cons_append] at this
  | alt r1 r2 ih1 ih2 =>
    intro s h
    rw [rderiv] at h
    cases h with
    | altL h1 => exact RMatch.altL (ih1 h1)
    | altR h2 => exact RMatch.altR (ih2 h2)
  | star r ih =>
    intro s h
    rw [rderiv] at h
    generalize hu : s = u at h
    cases h with
    | seq ha hb =>
      rename_i s1 s2
      subst hu
      have := RMatch.starCons (ih ha) hb
      rwa [List.cons_append] at this

/-- Completeness of the derivative: a match starting with `c` derives. -/
lemma rderiv_complete (c : Char) :
    ∀ {r : Regex} {t : List Char}, RMatch r t →
      ∀ {s : List Char}, t = c :: s → RMatch (rderiv c r) s := by
  intro r t h
  induction h with
  | eps => intro s hs; exact absurd hs (by simp)
  | char d =>
    intro s hs
    injection hs with h1 h2
    subst h1
    rw [rderiv, if_pos rfl, ← h2]
    exact RMatch.eps
  | any d =>
    intro s hs
    injection hs with h1 h2
    rw [rderiv, ← h2]
    exact RMatch.eps
  | seq h1 h2 ih1 ih2 =>
    rename_i r1 r2 s1 s2
    intro s hs
    rw [rderiv]
    cases s1 with
    | nil =>
      rw [List.nil_append] at hs
      have hn : nullable r1 = true := (nullable_iff r1).mpr h1
      rw [if_pos hn]
      exact RMatch.altR (ih2 hs)
    | cons d s1' =>
      rw [List.cons_append] at hs
      injection hs with hd hrest
      subst hd
      have ha := ih1 (rfl : d :: s1' = d :: s1')
      by_cases hn : nullable r1 = true
      · rw [if_pos hn, ← hrest]
        exact RMatch.altL (RMatch.seq ha h2)
      · rw [if_neg hn, ← hrest]
        exact RMatch.seq ha h2
  | altL h1 ih1 =>
    intro s hs
    rw [rderiv]
    exact RMatch.altL (ih1 hs)
  | altR h2 ih2 =>
    intro s hs
    rw [rderiv]
    exact RMatch.altR (ih2 hs)
  | starNil => intro s hs; exact absurd hs (by simp)
  | starCons h1 h2 ih1 ih2 =>
    rename_i r s1 s2
    intro s hs
    rw [rderiv]
    cases s1 with
    | nil =>
      rw [List.nil_append] at hs
      exact ih2 hs
    | cons d s1' =>
      rw [List.cons_append] at hs
      injection hs with hd hrest
      subst hd
      rw [← hrest]
      exact RMatch.seq (ih1 rfl) h2

/-- The derivative matcher decides the matching relation. -/
lemma regexAccepts_iff : ∀ (l : List Char) (r : Regex),
    regexAccepts r l = true ↔ RMatch r l := by
  intro l
  induction l with
  | nil => intro r; exact nullable_iff r
  | cons c t ih =>
    intro r
    show regexAccepts (rderiv c r) t = true ↔ RMatch r (c :: t)
    rw [ih (rderiv c r)]
    exact ⟨fun h => rderiv_sound c r h, fun h => rderiv_complete c h rfl⟩

/-- A literal regex matches exactly its own string. -/
lemma literalRegex_match : ∀ (l s : List Char), RMatch (literalRegex l) s ↔ s = l := by
  intro l
  induction l with
  | nil =>
    intro s
    constructor
    · intro h; cases h; rfl
    · intro h; subst h; exact RMatch.eps
  | cons c t ih =>
    intro s
    constructor
    · intro h
      rw [literalRegex] at h
      generalize hu : s = u at h
      cases h with
      | seq ha hb =>
        rename_i s1 s2
        subst hu
        cases ha
        rw [(ih s2).mp hb]
        rfl
    · intro h
      subst h
      rw [literalRegex]
      have := RMatch.seq (RMatch.char c) ((ih t).mpr rfl)
      rwa [List.singleton_append] at this

/-- On an all-literal pattern the compiler just accumulates characters. -/
lemma compileAux_literal : ∀ (l : List Char) (cur : List Regex),
    (∀ c ∈ l, isRegexMeta c = false) →
    compileAux l [] [] cur = some (concatOf (l.reverse.map Regex.char ++ cur)) := by
  intro l
  induction l with
  | nil => intro cur _; rfl
  | cons c t ih =>
    intro cur h
    have hc : isRegexMeta c = false := h c (List.mem_cons_self c t)
    rw [show compileAux (c :: t) [] [] cur = compileAux t [] [] (.char c :: cur) from by
      simp [compileAux, hc]]
    rw [ih (.char c :: cur) fun x hx => h x (List.mem_cons_of_mem c hx)]
    rw [List.reverse_cons, List.map_append, List.append_assoc]
    rfl

/-- Atom accumulation builds the literal regex. -/
lemma concatOf_reverse_map : ∀ l : List Char,
    concatOf (l.reverse.map Regex.char) = literalRegex l := by
  intro l
  induction l with
  | nil => rfl
  | cons c t ih =>
    rw [List.reverse_cons, List.map_append, literalRegex, ← ih]
    show (t.reverse.map Regex.char ++ [Regex.char c]).foldl (fun acc r => Regex.seq r acc)
      Regex.eps = _
    rw [List.foldl_append]
    rfl

/-- An all-literal pattern compiles to its literal regex. -/
lemma parseRegex_literal (l : List Char) (h : ∀ c ∈ l, isRegexMeta c = false) :
    parseRegex l = some (literalRegex l) := by
  show compileAux l [] [] [] = _
  rw [compileAux_literal l [] h, List.append_nil, concatOf_reverse_map]

/-- On a pattern free of regex metacharacters, the duplicate comparison is
exactly case-insensitive equality of the trimmed incoming name with the
stored name. -/
lemma nameMatches_literal (rowName storedName : String)
    (h : regexLiteral (jsLower (jsTrim rowName)).data = true) :
    nameMatches rowName storedName = true ↔
      jsLower (jsTrim rowName) = jsLower storedName := by
  have hl : ∀ c ∈ (jsLower (jsTrim rowName)).data, isRegexMeta c = false := by
    intro c hc
    have h2 := List.all_eq_true.mp h c hc
    simpa using h2
  show (match parseRegex (jsLower (jsTrim rowName)).data with
    | some r => regexAccepts r (jsLower storedName).data
    | none => false) = true ↔ _
  rw [parseRegex_literal _ hl]
  show regexAccepts (literalRegex (jsLower (jsTrim rowName)).data)
    (jsLower storedName).data = true ↔ _
  rw [regexAccepts_iff, literalRegex_match]
  exact ⟨fun hd => (String.ext hd).symm, fun he => congrArg String.data he.symm⟩

/-- Each outcome satisfies exactly one of the three classifiers. -/
lemma outcome_trichotomy (o : RowOutcome) :
    (isSuccessO o = true ∧ isErrorO o = false ∧ isSkippedO o = false) ∨
    (isSuccessO o = false ∧ isErrorO o = true ∧ isSkippedO o = false) ∨
    (isSuccessO o = false ∧ isErrorO o = false ∧ isSkippedO o = true) := by
  cases o <;> simp [isSuccessO, isErrorO, isSkippedO]

/-- The three counters partition any outcome list. -/
lemma counts_sum (outs : List RowOutcome) :
    countSuccess outs + countError outs + countSkipped outs = outs.length := by
  induction outs with
  | nil => rfl
  | cons o t ih =>
    simp only [countSuccess, countError, countSkipped, List.countP_cons, List.length_cons] at *
    cases o <;> simp [isSuccessO, isErrorO, isSkippedO] <;> omega

/-- One outcome per row. -/
lemma processRows_length (rows : List CsvRow) :
    ∀ S, (processRows S rows).1.length = rows.length := by
  induction rows with
  | nil => intro S; rfl
  | cons r rest ih =>
    intro S
    show ((processRow S r).1 :: (processRows (processRow S r).2 rest).1).length = rest.length + 1
    rw [List.length_cons, ih]

/-- An invalid row produces exactly its validation error and leaves the store alone. -/
lemma processRow_error {r : CsvRow} {l : Nat} {m : String} (S : List Product)
    (h : validateRow r = .error (l, m)) : processRow S r = (.error l m, S) := by
  simp [processRow, h]

/-- A valid duplicate row is skipped and leaves the store alone. -/
lemma processRow_ok_dup {r : CsvRow} {v : Parsed} (S : List Product)
    (h : validateRow r = .ok v) (hd : dupB S v.name = true) :
    processRow S r = (.skipped v.line v.name existsMsg, S) := by
  simp [processRow, h, hd]

/-- A valid non-duplicate row is created and appended to the store. -/
lemma processRow_ok_new {r : CsvRow} {v : Parsed} (S : List Product)
    (h : validateRow r = .ok v) (hd : dupB S v.name = false) :
    processRow S r = (.success (mkProduct v), S ++ [mkProduct v]) := by
  simp [processRow, h, hd]

/-- Processing one row only ever appends to the store. -/
lemma processRow_store (S : List Product) (r : CsvRow) :
    ∃ t, (processRow S r).2 = S ++ t := by
  cases h : validateRow r with
  | error e =>
    cases e with
    | mk l m => exact ⟨[], by rw [processRow_error S h]; simp⟩
  | ok v =>
    cases hd : dupB S v.name
    · exact ⟨[mkProduct v], by rw [processRow_ok_new S h hd]⟩
    · exact ⟨[], by rw [processRow_ok_dup S h hd]; simp⟩

/-- Processing a batch only ever appends to the store. -/
lemma processRows_store (rows : List CsvRow) :
    ∀ S, ∃ t, (processRows S rows).2 = S ++ t := by
  induction rows with
  | nil => intro S; exact ⟨[], by simp [processRows]⟩
  | cons r rest ih =>
    intro S
    obtain ⟨t0, h0⟩ := processRow_store S r
    obtain ⟨t1, h1⟩ := ih (processRow S r).2
    refine ⟨t0 ++ t1, ?_⟩
    show (processRows (processRow S r).2 rest).2 = S ++ (t0 ++ t1)
    rw [h1, h0, List.append_assoc]

/-- A duplicate stays a duplicate as the store grows. -/
lemma dupB_mono {S : List Product} {n : String} (t : List Product)
    (h : dupB S n = true) : dupB (S ++ t) n = true := by
  simp only [dupB, List.any_append]
  simp only [dupB] at h
  rw [h, Bool.true_or]

/-- A metacharacter-free trimmed name always matches the record created from
it. -/
lemma nameMatches_trim (n : String)
    (h : regexLiteral (jsLower (jsTrim n)).data = true) :
    nameMatches n (jsTrim n) = true :=
  (nameMatches_literal n (jsTrim n) h).mpr rfl

/-- The error classifier of a row's outcome is its validation verdict,
whatever the store. -/
lemma processRow_fst_error (S : List Product) (r : CsvRow) :
    isErrorO (processRow S r).1 = rowErrB r := by
  cases h : validateRow r with
  | error e =>
    cases e with
    | mk l m => rw [processRow_error S h]; simp [rowErrB, h, isErrorO]
  | ok v =>
    cases hd : dupB S v.name
    · rw [processRow_ok_new S h hd]; simp [rowErrB, h, isErrorO]
    · rw [processRow_ok_dup S h hd]; simp [rowErrB, h, isErrorO]

/-- The number of error rows of a batch does not depend on the store. -/
lemma countError_run (rows : List CsvRow) :
    ∀ S, countError (processRows S rows).1 = rows.countP rowErrB := by
  induction rows with
  | nil => intro S; rfl
  | cons r rest ih =>
    intro S
    show countError ((processRow S r).1 :: (processRows (processRow S r).2 rest).1) =
      (r :: rest).countP rowErrB
    simp only [countError, List.countP_cons] at *
    rw [processRow_fst_error S r]
    have := ih (processRow S r).2
    simp only [countError] at this
    omega

/-- After a batch whose valid rows all carry metacharacter-free trimmed
names runs, every valid row of the batch matches something in the final store
(its own creation, or the record that made it a duplicate). -/
lemma dup_after : ∀ (rows : List CsvRow),
    (∀ (r : CsvRow) (v : Parsed), r ∈ rows → validateRow r = .ok v →
      regexLiteral (jsLower (jsTrim v.name)).data = true) →
    ∀ S (r : CsvRow) (v : Parsed), r ∈ rows → validateRow r = .ok v →
      dupB (processRows S rows).2 v.name = true := by
  intro rows
  induction rows with
  | nil =>
    intro _ S r v hm
    exact absurd hm (List.not_mem_nil r)
  | cons r0 rest ih =>
    intro hlit S r v hm hv
    have hsnd : (processRows S (r0 :: rest)).2 = (processRows (processRow S r0).2 rest).2 := rfl
    rcases List.mem_cons.mp hm with heq | hmem
    · subst heq
      obtain ⟨t1, h1⟩ := processRows_store rest (processRow S r).2
      rw [hsnd, h1]
      cases hd : dupB S v.name
      · rw [processRow_ok_new S hv hd]
        apply dupB_mono
        have hmk : nameMatches v.name (mkProduct v).name = true :=
          nameMatches_trim v.name (hlit r v hm hv)
        simp [dupB, List.any_append, hmk]
      · rw [processRow_ok_dup S hv hd]
        exact dupB_mono t1 hd
    · rw [hsnd]
      exact ih (fun r v hmem hv => hlit r v (List.mem_cons_of_mem r0 hmem) hv)
        (processRow S r0).2 r v hmem hv

/-- When every valid row of the batch is already a duplicate of the store,
the run skips every valid row, errors every invalid one, and creates nothing. -/
lemma all_dup_run (rows : List CsvRow) :
    ∀ S, (∀ (r : CsvRow) (v : Parsed), r ∈ rows → validateRow r = .ok v → dupB S v.name = true) →
      processRows S rows = (rows.map secondOutcome, S) := by
  induction rows with
  | nil => intro S h; rfl
  | cons r0 rest ih =>
    intro S h
    have hrest := ih S fun r v hm hv => h r v (List.mem_cons_of_mem r0 hm) hv
    show ((processRow S r0).1 :: (processRows (processRow S r0).2 rest).1,
          (processRows (processRow S r0).2 rest).2) = _
    cases h0 : validateRow r0 with
    | error e =>
      cases e with
      | mk l m =>
        rw [processRow_error S h0]
        simp [hrest, secondOutcome, h0]
    | ok v =>
      have hd := h r0 v (List.mem_cons_self r0 rest) h0
      rw [processRow_ok_dup S h0 hd]
      simp [hrest, secondOutcome, h0]

/-- A second-pass outcome is never a success. -/
lemma isSuccessO_second (r : CsvRow) : isSuccessO (secondOutcome r) = false := by
  cases h : validateRow r <;> simp [secondOutcome, h, isSuccessO]

/-- A second-pass outcome is an error exactly when the row is invalid. -/
lemma isErrorO_second (r : CsvRow) : isErrorO (secondOutcome r) = rowErrB r := by
  cases h : validateRow r <;> simp [secondOutcome, h, isErrorO, rowErrB]

/-! ### Idempotence of the JS trim -/

/-- The head surviving a `dropWhile` refutes the predicate. -/
lemma dropWhile_head_false {p : α → Bool} :
    ∀ {l : List α} {a : α} {t : List α}, l.dropWhile p = a :: t → p a = false := by
  intro l
  induction l with
  | nil =>
    intro a t h
    simp [List.dropWhile] at h
  | cons b l ih =>
    intro a t h
    rw [List.dropWhile_cons] at h
    by_cases hb : p b = true
    · rw [if_pos hb] at h
      exact ih h
    · rw [if_neg hb] at h
      cases h
      exact Bool.not_eq_true _ |>.mp hb

/-- `dropWhile` fixes a list whose head (if any) refutes the predicate. -/
lemma dropWhile_eq_self {p : α → Bool} {l : List α}
    (h : ∀ a t, l = a :: t → p a = false) : l.dropWhile p = l := by
  cases l with
  | nil => rfl
  | cons a t =>
    rw [List.dropWhile_cons, h a t rfl]
    simp

/-- `dropWhile` removes an initial segment. -/
lemma dropWhile_app {p : α → Bool} : ∀ l : List α, ∃ s, l = s ++ l.dropWhile p := by
  intro l
  induction l with
  | nil => exact ⟨[], rfl⟩
  | cons a t ih =>
    rw [List.dropWhile_cons]
    by_cases hb : p a = true
    · rw [if_pos hb]
      obtain ⟨s, hs⟩ := ih
      exact ⟨a :: s, by rw [List.cons_append, ← hs]⟩
    · rw [if_neg hb]
      exact ⟨[], rfl⟩

/-- A fully trimmed list has no whitespace at either end. -/
lemma jsTrimData_noWsEdge (l : List Char) : noWsEdge (jsTrimData l) := by
  constructor
  · intro a t h
    obtain ⟨s, hs⟩ := dropWhile_app (p := isJsWs) (trimL l).reverse
    have hl1 : trimL l = (jsTrimData l) ++ s.reverse := by
      have := congrArg List.reverse hs
      rw [List.reverse_reverse, List.reverse_append] at this
      exact this
    rw [h] at hl1
    exact dropWhile_head_false (t := t ++ s.reverse) (by rw [← List.cons_append, ← hl1]; rfl)
  · intro a t h
    have h2 : trimL (trimL l).reverse = a :: t := by
      rw [← h]
      exact (List.reverse_reverse (trimL (trimL l).reverse)).symm
    exact dropWhile_head_false h2

/-- Trimming fixes a list with no whitespace at either end. -/
lemma noWsEdge_fix {m : List Char} (h : noWsEdge m) : jsTrimData m = m := by
  show ((m.dropWhile isJsWs).reverse.dropWhile isJsWs).reverse = m
  rw [dropWhile_eq_self h.1]
  rw [dropWhile_eq_self h.2, List.reverse_reverse]

/-- JS `trim` is idempotent. -/
lemma jsTrim_idem (s : String) : jsTrim (jsTrim s) = jsTrim s :=
  congrArg String.mk (noWsEdge_fix (jsTrimData_noWsEdge s.data))

/-! ### Evaluation lemmas for the concrete sample data -/

/-- `Number("1") = 1`. -/
lemma evalNum1 : jsNumber? "1" = some 1 := by with_unfolding_all decide

/-- `Number("2") = 2`. -/
lemma evalNum2 : jsNumber? "2" = some 2 := by with_unfolding_all decide

/-- `Number("3") = 3`. -/
lemma evalNum3 : jsNumber? "3" = some 3 := by with_unfolding_all decide

/-- `Number("5") = 5`. -/
lemma evalNum5 : jsNumber? "5" = some 5 := by with_unfolding_all decide

/-- `Number("") = 0`. -/
lemma evalNumEmpty : jsNumber? "" = some 0 := by decide

/-- `Number("abc")` is `NaN`. -/
lemma evalNumAbc : jsNumber? "abc" = none := by decide

/-- `Number("x")` is `NaN`. -/
lemma evalNumX : jsNumber? "x" = none := by decide

/-- The timestamp of 2099-01-01. -/
lemma evalDateJan : jsDate? "2099-01-01" = some 4070908800000 := by decide

/-- The timestamp of 2099-02-01. -/
lemma evalDateFeb : jsDate? "2099-02-01" = some 4073587200000 := by decide

/-- `milk1` validates to `milk1Parsed`. -/
lemma vr_milk1 : validateRow milk1 = .ok milk1Parsed := by
  unfold validateRow
  rw [if_neg (by decide)]
  simp only [milk1, sampleRow, Option.getD_some]
  rw [evalNum5, evalNum2, evalNum3]
  try rfl

/-- `milk2` validates to `milk2Parsed`. -/
lemma vr_milk2 : validateRow milk2 = .ok milk2Parsed := by
  unfold validateRow
  rw [if_neg (by decide)]
  simp only [milk2, sampleRow, Option.getD_some]
  rw [evalNum1]
  try rfl

/-- `bread` fails numeric validation. -/
lemma vr_bread : validateRow bread = .error (4, numberMsg) := by
  unfold validateRow
  rw [if_neg (by decide)]
  simp only [bread, sampleRow, Option.getD_some]
  rw [evalNumAbc]
  try rfl

/-- `priceBad` fails numeric validation with the same reason as `bread`. -/
lemma vr_priceBad : validateRow priceBad = .error (2, numberMsg) := by
  unfold validateRow
  rw [if_neg (by decide)]
  simp only [priceBad, sampleRow, Option.getD_some]
  rw [evalNum5, evalNumAbc, evalNum2]
  try rfl

/-- `weightBad` fails the weight check. -/
lemma vr_weightBad : validateRow weightBad = .error (5, weightMsg) := by
  unfold validateRow
  rw [if_neg (by decide)]
  simp only [weightBad, Option.getD_some]
  rw [evalNum5, evalNum1, evalNum2, evalNumX]
  try rfl

/-- `milkEmptyPrice` validates, with price 0. -/
lemma vr_mep : validateRow milkEmptyPrice = .ok mepParsed := by
  unfold validateRow
  rw [if_neg (by decide)]
  simp only [milkEmptyPrice, sampleRow, Option.getD_some]
  rw [evalNum5, evalNumEmpty, evalNum3]
  try rfl

/-- `mlkRow` validates to `mlkParsed`. -/
lemma vr_mlk : validateRow mlkRow = .ok mlkParsed := by
  unfold validateRow
  rw [if_neg (by decide)]
  simp only [mlkRow, sampleRow, Option.getD_some]
  rw [evalNum5, evalNum2, evalNum3]
  try rfl

/-- `abRow1` validates to `abParsed1`. -/
lemma vr_ab1 : validateRow abRow1 = .ok abParsed1 := by
  unfold validateRow
  rw [if_neg (by decide)]
  simp only [abRow1, sampleRow, Option.getD_some]
  rw [evalNum5, evalNum2, evalNum3]
  try rfl

/-- `abRow2` validates to `abParsed2`. -/
lemma vr_ab2 : validateRow abRow2 = .ok abParsed2 := by
  unfold validateRow
  rw [if_neg (by decide)]
  simp only [abRow2, sampleRow, Option.getD_some]
  rw [evalNum1, evalNum2, evalNum3]
  try rfl

/-- `milkPlain` validates to `plainParsed`. -/
lemma vr_milkPlain : validateRow milkPlain = .ok plainParsed := by
  unfold validateRow
  rw [if_neg (by decide)]
  simp only [milkPlain, sampleRow, Option.getD_some]
  rw [evalNum5, evalNum2, evalNum3]
  try rfl

/-- The record created from `milk1Parsed`. -/
lemma mk_milk1 : mkProduct milk1Parsed = milkCreated := by decide

/-- The record created from `mepParsed`. -/
lemma mk_mep : mkProduct mepParsed = milkPriceZero := by decide

/-- The record created from `abParsed1`. -/
lemma mk_ab1 : mkProduct abParsed1 = abProd1 := by decide

/-- The record created from `abParsed2`. -/
lemma mk_ab2 : mkProduct abParsed2 = abProd2 := by decide

/-- 2.5 days remain for the sample product at time 0. -/
lemma dd_twoPointFive : daysDiff twoPointFive 0 = 5 / 2 := by
  unfold daysDiff msPerDay twoPointFive
  norm_num

/-- Shrinking the lead window does not change the days remaining. -/
lemma dd_short : daysDiff twoPointFiveShort 0 = 5 / 2 := by
  unfold daysDiff msPerDay twoPointFiveShort twoPointFive
  norm_num

/-- The expired sample product is one day past expiry at time 0. -/
lemma dd_expired : daysDiff expiredLongLead 0 = -1 := by
  unfold daysDiff msPerDay expiredLongLead twoPointFive
  norm_num

/-- 2.5 days remaining is inside a 3-day lead window. -/
lemma elig25 : eligibleB twoPointFive 0 = true := by
  unfold eligibleB
  rw [dd_twoPointFive]
  with_unfolding_all decide

/-- 2.5 days remaining is outside a 2-day lead window. -/
lemma eligShort : eligibleB twoPointFiveShort 0 = false := by
  unfold eligibleB
  rw [dd_short]
  with_unfolding_all decide

/-- An expired product is never eligible. -/
lemma eligExpired : eligibleB expiredLongLead 0 = false := by
  unfold eligibleB
  rw [dd_expired]
  with_unfolding_all decide

/-- The body dispatched for the 2.5-day product carries the ceiling "3". -/
lemma body25 : notifBody twoPointFive 0 =
    "Doodh " ++ ("3" ++ " din me expire hone wala hai") := by
  unfold notifBody
  rw [dd_twoPointFive]
  with_unfolding_all decide

/-- The send list produced for the 2.5-day product and one device. -/
lemma sends25 : productSends (fun _ => false) [tok1] 0 twoPointFive =
    [(mkSend 0 twoPointFive tok1, true)] := by
  unfold productSends
  rw [if_pos elig25]
  rfl

/-! ### Store invariants maintained by ingestion -/

/-- A failed duplicate lookup refutes the match against every stored record. -/
lemma dupB_false_all {S : List Product} {n : String} (hd : dupB S n = false) :
    ∀ p ∈ S, nameMatches n p.name = false := by
  intro p hp
  cases hnm : nameMatches n p.name
  · rfl
  · exfalso
    have hT : dupB S n = true := by
      simp [dupB, List.any_eq_true]
      exact ⟨p, hp, hnm⟩
    rw [hd] at hT
    simp at hT

/-- Processing a batch whose valid rows all carry metacharacter-free trimmed
names preserves trimmed names and pairwise caseless distinctness of the
store. -/
lemma store_invariants : ∀ (rows : List CsvRow),
    (∀ (r : CsvRow) (v : Parsed), r ∈ rows → validateRow r = .ok v →
      regexLiteral (jsLower (jsTrim v.name)).data = true) →
    ∀ S, storeTrimmed S → storeCaselessDistinct S →
      storeTrimmed (processRows S rows).2 ∧ storeCaselessDistinct (processRows S rows).2 := by
  intro rows
  induction rows with
  | nil => intro _ S h1 h2; exact ⟨h1, h2⟩
  | cons r rest ih =>
    intro hlit S h1 h2
    have hlitRest : ∀ (r : CsvRow) (v : Parsed), r ∈ rest → validateRow r = .ok v →
        regexLiteral (jsLower (jsTrim v.name)).data = true :=
      fun r v hmem hv => hlit r v (List.mem_cons_of_mem _ hmem) hv
    show storeTrimmed (processRows (processRow S r).2 rest).2 ∧
      storeCaselessDistinct (processRows (processRow S r).2 rest).2
    cases hv : validateRow r with
    | error e =>
      cases e with
      | mk l m =>
        rw [processRow_error S hv]
        exact ih hlitRest S h1 h2
    | ok v =>
      cases hd : dupB S v.name
      · rw [processRow_ok_new S hv hd]
        apply ih hlitRest
        · intro p hp
          rcases List.mem_append.mp hp with hmem | hmem
          · exact h1 p hmem
          · have hpv : p = mkProduct v := List.mem_singleton.mp hmem
            subst hpv
            exact jsTrim_idem v.name
        · refine List.pairwise_append.mpr ⟨h2, List.pairwise_singleton _ _, ?_⟩
          intro p hp q hq
          have hq' : q = mkProduct v := List.mem_singleton.mp hq
          subst hq'
          have hnm := dupB_false_all hd p hp
          have hlitv := hlit r v (List.mem_cons_self r rest) hv
          have hne : jsLower (jsTrim v.name) ≠ jsLower p.name := by
            intro hcontra
            have hT : nameMatches v.name p.name = true :=
              (nameMatches_literal v.name p.name hlitv).mpr hcontra
            rw [hnm] at hT
            simp at hT
          rw [h1 p hp]
          show jsLower p.name ≠ jsLower (jsTrim (jsTrim v.name))
          rw [jsTrim_idem v.name]
          exact fun hcontra => hne hcontra.symm
      · rw [processRow_ok_dup S hv hd]
        exact ih hlitRest S h1 h2

/-! ### Helper lemmas about the cron scan -/

/-- The attempted messages of a scan do not depend on which sends fail. -/
lemma cronScan_map_fst (fails : Attempt → Bool) (users : List User) (today : Int) :
    ∀ products : List Product,
      (cronScan fails users today products).map Prod.fst =
        (cronScan (fun _ => false) users today products).map Prod.fst := by
  intro products
  induction products with
  | nil => rfl
  | cons p ps ih =>
    simp only [cronScan, List.map_append, ih]
    congr 1
    cases he : eligibleB p today
    · simp [productSends, he]
    · simp [productSends, he, List.map_map, Function.comp]

/-- A scan attempts one send per (eligible product, user) pair. -/
lemma cronScan_length (fails : Attempt → Bool) (users : List User) (today : Int) :
    ∀ products : List Product,
      (cronScan fails users today products).length =
        (products.filter fun p => eligibleB p today).length * users.length := by
  intro products
  induction products with
  | nil => simp [cronScan]
  | cons p ps ih =>
    simp only [cronScan, List.length_append, ih, List.filter_cons]
    cases he : eligibleB p today
    · simp [productSends, he]
    · simp [productSends, he]
      ring

/-! ### Claim theorems -/

/-- Claim C1: every parsed row of a batch with at least one row is classified
into exactly one of the three outcome lists, so the reported total (the number
of parsed rows) equals successful + errors + skipped, and no row's outcome
prevents the remaining rows from being processed: the loop always takes the
next row with the store the previous rows left. -/
theorem csv_batch_full_accounting (S : List Product) (rows : List CsvRow)
    (_hne : rows ≠ []) :
    ((processRows S rows).1.length = rows.length ∧
      countSuccess (processRows S rows).1 + countError (processRows S rows).1 +
        countSkipped (processRows S rows).1 = rows.length) ∧
    (∀ o : RowOutcome,
      (isSuccessO o = true ∧ isErrorO o = false ∧ isSkippedO o = false) ∨
      (isSuccessO o = false ∧ isErrorO o = true ∧ isSkippedO o = false) ∨
      (isSuccessO o = false ∧ isErrorO o = false ∧ isSkippedO o = true)) ∧
    (∀ (s : List Product) (r : CsvRow) (rest : List CsvRow),
      processRows s (r :: rest) =
        ((processRow s r).1 :: (processRows (processRow s r).2 rest).1,
          (processRows (processRow s r).2 rest).2)) := by
  refine ⟨⟨processRows_length rows S, ?_⟩, outcome_trichotomy, fun s r rest => rfl⟩
  rw [counts_sum, processRows_length]

/-- Witness: the accounting theorem at the one-row Milk batch. -/
theorem csv_batch_full_accounting_witness :
    [milk1] ≠ ([] : List CsvRow) ∧
    (((processRows [] [milk1]).1.length = [milk1].length ∧
      countSuccess (processRows [] [milk1]).1 + countError (processRows [] [milk1]).1 +
        countSkipped (processRows [] [milk1]).1 = [milk1].length) ∧
    (∀ o : RowOutcome,
      (isSuccessO o = true ∧ isErrorO o = false ∧ isSkippedO o = false) ∨
      (isSuccessO o = false ∧ isErrorO o = true ∧ isSkippedO o = false) ∨
      (isSuccessO o = false ∧ isErrorO o = false ∧ isSkippedO o = true)) ∧
    (∀ (s : List Product) (r : CsvRow) (rest : List CsvRow),
      processRows s (r :: rest) =
        ((processRow s r).1 :: (processRows (processRow s r).2 rest).1,
          (processRows (processRow s r).2 rest).2))) :=
  ⟨by decide, csv_batch_full_accounting [] [milk1] (by decide)⟩

/-- Claim C5 (amended): a row with name, quantity, expiryDate or
notifyBeforeDays absent or empty, or with price absent, is recorded as an
error with the missing-required-fields reason and creates no record; price is
checked for definedness only, so a present-but-empty price cell passes the
check (it coerces to 0 — see the counterexample). -/
theorem csv_missing_fields (S : List Product) (r : CsvRow)
    (h : falsy r.name = true ∨ falsy r.quantity = true ∨ r.price = none ∨
      falsy r.expiryDate = true ∨ falsy r.notifyBeforeDays = true) :
    processRow S r = (.error r.lineNumber missingMsg, S) := by
  have hcond : (falsy r.name || falsy r.quantity || r.price.isNone ||
      falsy r.expiryDate || falsy r.notifyBeforeDays) = true := by
    rcases h with h | h | h | h | h <;> simp [h]
  have hv : validateRow r = .error (r.lineNumber, missingMsg) := by
    unfold validateRow
    rw [if_pos hcond]
  exact processRow_error S hv

/-- Witness: the missing-fields theorem at a row with an absent name. -/
theorem csv_missing_fields_witness :
    (falsy noNameRow.name = true ∨ falsy noNameRow.quantity = true ∨ noNameRow.price = none ∨
      falsy noNameRow.expiryDate = true ∨ falsy noNameRow.notifyBeforeDays = true) ∧
    processRow [] noNameRow = (.error 2 missingMsg, []) :=
  ⟨Or.inl (by decide), csv_missing_fields [] noNameRow (Or.inl (by decide))⟩

/-- Counterexample to claim C5 as stated: a row whose price cell is present
but empty is not classified as an error; the handler creates a record for it
with price 0. -/
theorem csv_missing_fields_cx :
    milkEmptyPrice.price = some "" ∧
    processRow [] milkEmptyPrice = (.success milkPriceZero, [milkPriceZero]) := by
  refine ⟨rfl, ?_⟩
  rw [processRow_ok_new [] vr_mep rfl, mk_mep]
  rfl

/-- Claim C6 (amended): for a row that passes the presence check, a parse
failure among quantity, price or notifyBeforeDays yields an error row whose
reason is the fixed message naming those three candidate fields (it does not
single out which one failed — see the counterexample), a weight parse failure
yields the weight-specific reason, and in both cases no record is created. -/
theorem csv_bad_number (S : List Product) (r : CsvRow)
    (hp : (falsy r.name || falsy r.quantity || r.price.isNone ||
      falsy r.expiryDate || falsy r.notifyBeforeDays) = false) :
    ((jsNumber? (r.quantity.getD "") = none ∨ jsNumber? (r.price.getD "") = none ∨
        jsNumber? (r.notifyBeforeDays.getD "") = none) →
      processRow S r = (.error r.lineNumber numberMsg, S)) ∧
    (∀ q pr nd : Rat, jsNumber? (r.quantity.getD "") = some q →
      jsNumber? (r.price.getD "") = some pr →
      jsNumber? (r.notifyBeforeDays.getD "") = some nd →
      falsy r.weight = false → jsNumber? (r.weight.getD "") = none →
      processRow S r = (.error r.lineNumber weightMsg, S)) := by
  constructor
  · intro h
    have hv : validateRow r = .error (r.lineNumber, numberMsg) := by
      unfold validateRow
      rw [if_neg (by simp [hp])]
      cases hq : jsNumber? (r.quantity.getD "") <;>
        cases hb : jsNumber? (r.price.getD "") <;>
          cases hc : jsNumber? (r.notifyBeforeDays.getD "") <;>
            simp_all
    exact processRow_error S hv
  · intro q pr nd hq hpr hnd hw hwn
    have hv : validateRow r = .error (r.lineNumber, weightMsg) := by
      unfold validateRow
      rw [if_neg (by simp [hp])]
      rw [hq, hpr, hnd]
      simp [hw, hwn]
    exact processRow_error S hv

/-- Witness: the bad-number theorem at the Bread row (bad quantity) and at a
row with a bad weight. -/
theorem csv_bad_number_witness :
    processRow [] bread = (.error 4 numberMsg, []) ∧
    processRow [] weightBad = (.error 5 weightMsg, []) :=
  ⟨(csv_bad_number [] bread (by decide)).1 (Or.inl evalNumAbc),
   (csv_bad_number [] weightBad (by decide)).2 5 1 2 evalNum5 evalNum1 evalNum2
     (by decide) evalNumX⟩

/-- Counterexample to claim C6 as stated: a quantity failure and a price
failure receive the identical recorded reason, so the reason does not
identify which field failed to parse. -/
theorem csv_bad_number_cx :
    (processRow [] bread).1 = .error 4 numberMsg ∧
    (processRow [] priceBad).1 = .error 2 numberMsg ∧
    jsNumber? "abc" = none ∧ jsNumber? "5" = some 5 ∧ jsNumber? "1" = some 1 ∧
    jsNumber? "2" = some 2 := by
  refine ⟨?_, ?_, evalNumAbc, evalNum5, evalNum1, evalNum2⟩
  · rw [processRow_error [] vr_bread]
  · rw [processRow_error [] vr_priceBad]

/-- Claim C4 (amended): a row that passes validation, whose trimmed name is
free of regex metacharacters, and whose trimmed name equals an existing
stored name up to letter case, is recorded under skipped with its line
number, its raw name and the reason "Product already exists" (which contains
the phrase "already exists"), and no record is created.  (As literally
stated the claim fails twice over: the handler compares the TRIMMED row name
against the stored name, and the name is interpolated unescaped into the
lookup regex, so a metacharacter name such as "Milk (2L)" fails to match an
identical stored name — see the counterexample.) -/
theorem csv_duplicate_skip (S : List Product) (r : CsvRow) (v : Parsed) (p : Product)
    (hv : validateRow r = .ok v) (hp : p ∈ S)
    (hlit : regexLiteral (jsLower (jsTrim v.name)).data = true)
    (heq : jsLower (jsTrim v.name) = jsLower p.name) :
    processRow S r = (.skipped v.line v.name existsMsg, S) ∧
    strContains existsMsg "already exists" := by
  have hm : nameMatches v.name p.name = true :=
    (nameMatches_literal v.name p.name hlit).mpr heq
  have hd : dupB S v.name = true := by
    simp [dupB, List.any_eq_true]
    exact ⟨p, hp, hm⟩
  exact ⟨processRow_ok_dup S hv hd, ⟨"Product ", "", by decide⟩⟩

/-- Witness: the duplicate-skip theorem at the second Milk row against the
store holding the first Milk record. -/
theorem csv_duplicate_skip_witness :
    processRow [milkCreated] milk2 = (.skipped 3 "Milk" existsMsg, [milkCreated]) ∧
    strContains existsMsg "already exists" :=
  csv_duplicate_skip [milkCreated] milk2 milk2Parsed milkCreated vr_milk2
    (by decide) (by decide) (by decide)

/-- Counterexample to claim C4 as stated: the row name "Milk (2L)" and the
stored name "Milk (2L)" are identical — so they match under case-insensitive
exact comparison — yet the row is created rather than skipped: the unescaped
interpolation turns the lookup into the regex pattern Milk (2L), which only
matches "Milk 2L", not the stored literal. -/
theorem csv_duplicate_skip_cx :
    jsLower "Milk (2L)" = jsLower mlkStored.name ∧
    nameMatches "Milk (2L)" mlkStored.name = false ∧
    isSkippedO (processRow [mlkStored] mlkRow).1 = false ∧
    isSuccessO (processRow [mlkStored] mlkRow).1 = true := by
  have h := processRow_ok_new [mlkStored] vr_mlk (by decide)
  refine ⟨by decide, by decide, ?_, ?_⟩ <;> rw [h] <;> rfl

/-- Claim C7 (amended): duplicate detection runs sequentially per row against
the live store — two valid rows with the same name, that name free of regex
metacharacters once trimmed and not already in the store, yield one
created-and-successful row then one skipped row — and the three-row
Milk/Milk/Bread scenario against an empty store yields exactly the outcome
list 1 successful, 1 skipped, 1 error.  (As literally stated — for any
repeated name — the claim fails on names carrying regex metacharacters,
which the handler interpolates unescaped into the lookup pattern; see the
counterexample, where the row "a+b" is created twice.) -/
theorem csv_sequential_dedup :
    (∀ (S : List Product) (r1 r2 : CsvRow) (rest : List CsvRow) (v1 v2 : Parsed),
      validateRow r1 = .ok v1 → validateRow r2 = .ok v2 → v2.name = v1.name →
      regexLiteral (jsLower (jsTrim v1.name)).data = true →
      dupB S v1.name = false →
      (processRows S (r1 :: r2 :: rest)).1.take 2 =
        [.success (mkProduct v1), .skipped v2.line v2.name existsMsg]) ∧
    ((processRows [] [milk1, milk2, bread]).1 =
        [.success milkCreated, .skipped 3 "Milk" existsMsg, .error 4 numberMsg] ∧
      countSuccess (processRows [] [milk1, milk2, bread]).1 = 1 ∧
      countSkipped (processRows [] [milk1, milk2, bread]).1 = 1 ∧
      countError (processRows [] [milk1, milk2, bread]).1 = 1) := by
  have hgen : ∀ (S : List Product) (r1 r2 : CsvRow) (rest : List CsvRow) (v1 v2 : Parsed),
      validateRow r1 = .ok v1 → validateRow r2 = .ok v2 → v2.name = v1.name →
      regexLiteral (jsLower (jsTrim v1.name)).data = true →
      dupB S v1.name = false →
      (processRows S (r1 :: r2 :: rest)).1.take 2 =
        [.success (mkProduct v1), .skipped v2.line v2.name existsMsg] := by
    intro S r1 r2 rest v1 v2 h1 h2 hname hlit1 hd
    have hrow1 := processRow_ok_new S h1 hd
    have hd2 : dupB (S ++ [mkProduct v1]) v2.name = true := by
      have hmk : nameMatches v2.name (mkProduct v1).name = true := by
        show nameMatches v2.name (jsTrim v1.name) = true
        rw [hname]
        exact nameMatches_trim v1.name hlit1
      simp [dupB, List.any_append, hmk]
    have hrow2 := processRow_ok_dup (S ++ [mkProduct v1]) h2 hd2
    show ((processRow S r1).1 :: (processRow (processRow S r1).2 r2).1 ::
        (processRows (processRow (processRow S r1).2 r2).2 rest).1).take 2 = _
    rw [hrow1]
    show (RowOutcome.success (mkProduct v1) :: (processRow (S ++ [mkProduct v1]) r2).1 ::
        (processRows (processRow (S ++ [mkProduct v1]) r2).2 rest).1).take 2 = _
    rw [hrow2]
    rfl
  refine ⟨hgen, ?_, ?_, ?_, ?_⟩
  case _ =>
    have s1 : processRow [] milk1 = (.success milkCreated, [milkCreated]) := by
      rw [processRow_ok_new [] vr_milk1 rfl, mk_milk1]
      rfl
    have s2 : processRow [milkCreated] milk2 = (.skipped 3 "Milk" existsMsg, [milkCreated]) := by
      rw [processRow_ok_dup [milkCreated] vr_milk2 (by decide)]
      rfl
    have s3 : processRow [milkCreated] bread = (.error 4 numberMsg, [milkCreated]) := by
      rw [processRow_error [milkCreated] vr_bread]
    show ((processRow [] milk1).1 :: (processRow (processRow [] milk1).2 milk2).1 ::
        (processRow (processRow (processRow [] milk1).2 milk2).2 bread).1 :: []) = _
    rw [s1]
    show (RowOutcome.success milkCreated :: (processRow [milkCreated] milk2).1 ::
        (processRow (processRow [milkCreated] milk2).2 bread).1 :: []) = _
    rw [s2]
    show (RowOutcome.success milkCreated :: RowOutcome.skipped 3 "Milk" existsMsg ::
        (processRow [milkCreated] bread).1 :: []) = _
    rw [s3]
  all_goals {
    have s1 : processRow [] milk1 = (.success milkCreated, [milkCreated]) := by
      rw [processRow_ok_new [] vr_milk1 rfl, mk_milk1]
      rfl
    have s2 : processRow [milkCreated] milk2 = (.skipped 3 "Milk" existsMsg, [milkCreated]) := by
      rw [processRow_ok_dup [milkCreated] vr_milk2 (by decide)]
      rfl
    have s3 : processRow [milkCreated] bread = (.error 4 numberMsg, [milkCreated]) := by
      rw [processRow_error [milkCreated] vr_bread]
    show _ = 1
    rw [show (processRows [] [milk1, milk2, bread]).1 =
        ((processRow [] milk1).1 :: (processRow (processRow [] milk1).2 milk2).1 ::
          (processRow (processRow (processRow [] milk1).2 milk2).2 bread).1 :: []) from rfl]
    rw [s1]
    rw [show (processRow ((RowOutcome.success milkCreated, [milkCreated]) :
        RowOutcome × List Product).2 milk2) = processRow [milkCreated] milk2 from rfl]
    rw [s2]
    rw [show (processRow ((RowOutcome.skipped 3 "Milk" existsMsg, [milkCreated]) :
        RowOutcome × List Product).2 bread) = processRow [milkCreated] bread from rfl]
    rw [s3]
    rfl
  }

/-- Witness: the sequential-dedup theorem at the two Milk rows on the empty
store. -/
theorem csv_sequential_dedup_witness :
    (processRows [] [milk1, milk2]).1.take 2 =
      [.success (mkProduct milk1Parsed), .skipped milk2Parsed.line milk2Parsed.name existsMsg] :=
  csv_sequential_dedup.1 [] milk1 milk2 [] milk1Parsed milk2Parsed vr_milk1 vr_milk2 rfl
    (by decide) rfl

/-- Counterexample to claim C7 as stated: the two valid rows named "a+b"
(a name the handler interpolates unescaped into the lookup regex, where `+`
is a quantifier, so the pattern `^a+b$` does not match the stored string
"a+b") are both created — the second is successful, not skipped. -/
theorem csv_sequential_dedup_cx :
    abParsed2.name = abParsed1.name ∧
    nameMatches abParsed2.name abProd1.name = false ∧
    (processRows [] [abRow1, abRow2]).1 = [.success abProd1, .success abProd2] := by
  have s1 : processRow [] abRow1 = (.success abProd1, [abProd1]) := by
    rw [processRow_ok_new [] vr_ab1 rfl, mk_ab1]
    rfl
  have s2 : processRow [abProd1] abRow2 = (.success abProd2, [abProd1, abProd2]) := by
    rw [processRow_ok_new [abProd1] vr_ab2 (by decide), mk_ab2]
    rfl
  refine ⟨rfl, by decide, ?_⟩
  show ((processRow [] abRow1).1 :: (processRow (processRow [] abRow1).2 abRow2).1 ::
      (processRows (processRow (processRow [] abRow1).2 abRow2).2 []).1) = _
  rw [s1]
  show (RowOutcome.success abProd1 :: (processRow [abProd1] abRow2).1 ::
      (processRows (processRow [abProd1] abRow2).2 []).1) = _
  rw [s2]
  rfl

/-- Claim C8 (amended): re-uploading an identical CSV whose valid rows all
carry regex-metacharacter-free trimmed names yields zero successful rows;
rows that failed validation the first time fail identically again (they are
errors, not skips), and every other row — previously successful or
previously skipped — is skipped.  (As literally stated the claim fails in
two ways: "every row under skipped" fails on a CSV with an invalid row, and
a valid row whose name carries a regex metacharacter — interpolated
unescaped into the lookup pattern — is created again on re-upload rather
than skipped; see the counterexample.) -/
theorem csv_reupload_counts (S : List Product) (rows : List CsvRow)
    (hlit : ∀ (r : CsvRow) (v : Parsed), r ∈ rows → validateRow r = .ok v →
      regexLiteral (jsLower (jsTrim v.name)).data = true) :
    countSuccess (processRows (processRows S rows).2 rows).1 = 0 ∧
    countError (processRows (processRows S rows).2 rows).1 =
      countError (processRows S rows).1 ∧
    countSkipped (processRows (processRows S rows).2 rows).1 =
      countSkipped (processRows S rows).1 + countSuccess (processRows S rows).1 := by
  have hall : ∀ (r : CsvRow) (v : Parsed), r ∈ rows → validateRow r = .ok v →
      dupB (processRows S rows).2 v.name = true :=
    fun r v hm hv => dup_after rows hlit S r v hm hv
  have hrun := all_dup_run rows (processRows S rows).2 hall
  have hfst : (processRows (processRows S rows).2 rows).1 = rows.map secondOutcome := by
    rw [hrun]
  have hS2 : countSuccess (rows.map secondOutcome) = 0 := by
    simp only [countSuccess, List.countP_map]
    apply List.countP_eq_zero.mpr
    intro r hr
    simp [Function.comp, isSuccessO_second]
  have hE2 : countError (rows.map secondOutcome) = rows.countP rowErrB := by
    simp only [countError, List.countP_map]
    have hcongr : (isErrorO ∘ secondOutcome) = rowErrB :=
      funext fun r => by simp [Function.comp, isErrorO_second]
    rw [hcongr]
  have e0 : countSuccess (processRows (processRows S rows).2 rows).1 = 0 := by
    rw [hfst]
    exact hS2
  have e2 : countError (processRows (processRows S rows).2 rows).1 =
      countError (processRows S rows).1 := by
    rw [hfst, hE2, ← countError_run rows S]
  have hlen1 := processRows_length rows S
  have hlen2 := processRows_length rows (processRows S rows).2
  have hpart1 := counts_sum (processRows S rows).1
  have hpart2 := counts_sum (processRows (processRows S rows).2 rows).1
  exact ⟨e0, e2, by omega⟩

/-- Witness: the re-upload theorem at the Milk/Milk/Bread batch on the empty
store. -/
theorem csv_reupload_counts_witness :
    countSuccess (processRows (processRows [] [milk1, milk2, bread]).2
      [milk1, milk2, bread]).1 = 0 ∧
    countError (processRows (processRows [] [milk1, milk2, bread]).2
        [milk1, milk2, bread]).1 =
      countError (processRows [] [milk1, milk2, bread]).1 ∧
    countSkipped (processRows (processRows [] [milk1, milk2, bread]).2
        [milk1, milk2, bread]).1 =
      countSkipped (processRows [] [milk1, milk2, bread]).1 +
        countSuccess (processRows [] [milk1, milk2, bread]).1 :=
  csv_reupload_counts [] [milk1, milk2, bread] (by
    intro r v hm hv
    rcases List.mem_cons.mp hm with h | hm
    · subst h
      rw [vr_milk1] at hv
      cases hv
      decide
    rcases List.mem_cons.mp hm with h | hm
    · subst h
      rw [vr_milk2] at hv
      cases hv
      decide
    rcases List.mem_cons.mp hm with h | hm
    · subst h
      rw [vr_bread] at hv
      cases hv
    · exact absurd hm (List.not_mem_nil r))

/-- Counterexample to claim C8 as stated: re-uploading the one-row Bread CSV
(bad quantity) produces an error row again, not a skipped row, so not every
row of the second upload is under skipped; and re-uploading the one-row
"a+b" CSV creates the product a second time — a successful row, not a
skipped one — because the unescaped `+` makes the lookup pattern `^a+b$`
miss the stored name "a+b". -/
theorem csv_reupload_cx :
    (countSkipped (processRows (processRows [] [bread]).2 [bread]).1 = 0 ∧
      countError (processRows (processRows [] [bread]).2 [bread]).1 = 1) ∧
    countSuccess (processRows (processRows [] [abRow1]).2 [abRow1]).1 = 1 := by
  have h1 : processRows [] [bread] = ([.error 4 numberMsg], []) := by
    show ((processRow [] bread).1 :: (processRows (processRow [] bread).2 []).1,
      (processRows (processRow [] bread).2 []).2) = _
    rw [processRow_error [] vr_bread]
    rfl
  have h2 : processRows (processRows [] [bread]).2 [bread] = ([.error 4 numberMsg], []) := by
    rw [h1]
    exact h1
  have a1 : processRow [] abRow1 = (.success abProd1, [abProd1]) := by
    rw [processRow_ok_new [] vr_ab1 rfl, mk_ab1]
    rfl
  have a2 : processRow [abProd1] abRow1 = (.success abProd1, [abProd1, abProd1]) := by
    rw [processRow_ok_new [abProd1] vr_ab1 (by decide), mk_ab1]
    rfl
  have b1 : processRows [] [abRow1] = ([.success abProd1], [abProd1]) := by
    show ((processRow [] abRow1).1 :: (processRows (processRow [] abRow1).2 []).1,
      (processRows (processRow [] abRow1).2 []).2) = _
    rw [a1]
    rfl
  have b2 : (processRows (processRows [] [abRow1]).2 [abRow1]).1 = [.success abProd1] := by
    rw [b1]
    show ((processRow [abProd1] abRow1).1 ::
      (processRows (processRow [abProd1] abRow1).2 []).1) = _
    rw [a2]
    rfl
  refine ⟨?_, ?_⟩
  · rw [h2]
    exact ⟨rfl, rfl⟩
  · rw [b2]
    rfl

/-- Claim C10 (amended): the duplicate check compares the TRIMMED incoming
name (case-insensitively) against stored names as they are, and the created
record stores the trimmed name; hence a validated row whose trimmed name is
free of regex metacharacters and case-insensitively equals the name of an
existing record that is itself trimmed (as every ingestion-created record
is) is skipped, and ingestion of batches whose valid rows carry
metacharacter-free trimmed names preserves the invariant that stored names
are trimmed and pairwise case-insensitively distinct.  (As literally stated
the claim fails when the pre-existing record's name is untrimmed, and both
conjuncts fail on names with regex metacharacters, which the handler
interpolates unescaped into the lookup pattern — see the counterexample.) -/
theorem csv_trim_invariant :
    (∀ (S : List Product) (r : CsvRow) (v : Parsed) (p : Product),
      validateRow r = .ok v →
      regexLiteral (jsLower (jsTrim v.name)).data = true →
      p ∈ S → jsTrim p.name = p.name →
      jsLower (jsTrim v.name) = jsLower (jsTrim p.name) →
      processRow S r = (.skipped v.line v.name existsMsg, S)) ∧
    (∀ (S : List Product) (rows : List CsvRow),
      (∀ (r : CsvRow) (v : Parsed), r ∈ rows → validateRow r = .ok v →
        regexLiteral (jsLower (jsTrim v.name)).data = true) →
      storeTrimmed S → storeCaselessDistinct S →
      storeTrimmed (processRows S rows).2 ∧ storeCaselessDistinct (processRows S rows).2) := by
  constructor
  · intro S r v p hv hlit hp htr heq
    have hm : nameMatches v.name p.name = true :=
      (nameMatches_literal v.name p.name hlit).mpr (by rw [heq, htr])
    have hd : dupB S v.name = true := by
      simp [dupB, List.any_eq_true]
      exact ⟨p, hp, hm⟩
    exact processRow_ok_dup S hv hd
  · exact fun S rows hlit h1 h2 => store_invariants rows hlit S h1 h2

/-- Witness: the trim-invariant theorem at the second Milk row and at the
one-row Milk batch from the empty store. -/
theorem csv_trim_invariant_witness :
    processRow [milkCreated] milk2 =
      (.skipped milk2Parsed.line milk2Parsed.name existsMsg, [milkCreated]) ∧
    (storeTrimmed (processRows [] [milk1]).2 ∧
      storeCaselessDistinct (processRows [] [milk1]).2) :=
  ⟨csv_trim_invariant.1 [milkCreated] milk2 milk2Parsed milkCreated vr_milk2 (by decide)
      (by decide) (by decide) (by decide),
   csv_trim_invariant.2 [] [milk1]
     (by
       intro r v hm hv
       rcases List.mem_cons.mp hm with h | hm
       · subst h
         rw [vr_milk1] at hv
         cases hv
         decide
       · exact absurd hm (List.not_mem_nil r))
     (fun p hp => absurd hp (List.not_mem_nil p))
     List.Pairwise.nil⟩

/-- Counterexample to claim C10 as stated: against a store holding the
untrimmed name " milk" (reachable via the non-trimming `POST /product`
endpoint), the row named "milk" — differing only by leading whitespace — is
created rather than skipped, leaving two records whose trimmed names are
case-insensitively equal; and the row "a+b" against a store holding the
trimmed, identical name "a+b" is also created rather than skipped (the
unescaped `+` makes the pattern `^a+b$` miss), so ingestion breaks the
pairwise caseless-distinctness invariant. -/
theorem csv_trim_invariant_cx :
    (jsLower (jsTrim "milk") = jsLower (jsTrim " milk") ∧
      isSkippedO (processRow [untrimmedStored] milkPlain).1 = false ∧
      (processRow [untrimmedStored] milkPlain).2.length = 2) ∧
    (jsTrim abProd1.name = abProd1.name ∧
      jsLower (jsTrim abParsed2.name) = jsLower (jsTrim abProd1.name) ∧
      isSkippedO (processRow [abProd1] abRow2).1 = false ∧
      ¬ storeCaselessDistinct (processRow [abProd1] abRow2).2) := by
  have h := processRow_ok_new [untrimmedStored] vr_milkPlain (by decide)
  have h2 : processRow [abProd1] abRow2 = (.success abProd2, [abProd1, abProd2]) := by
    rw [processRow_ok_new [abProd1] vr_ab2 (by decide), mk_ab2]
    rfl
  refine ⟨⟨by decide, ?_, ?_⟩, by decide, by decide, ?_, ?_⟩
  · rw [h]; rfl
  · rw [h]; rfl
  · rw [h2]; rfl
  · rw [h2]
    intro hd
    exact (List.pairwise_cons.mp hd).1 abProd2 (List.mem_singleton.mpr rfl) (by decide)

/-- Claim C2: with `now` captured once per invocation, a product is eligible
iff `0 < daysRemaining ≤ notifyBeforeDays`; a product with
`daysRemaining ≤ 0` is never eligible however large its lead window; every
dispatched body contains the ceiling of `daysRemaining`; and concretely a
product 2.5 days from expiry is eligible with lead 3 (body contains "3") but
not with lead 2. -/
theorem cron_eligibility_window :
    (∀ (p : Product) (today : Int),
        eligibleB p today = true ↔
          0 < daysDiff p today ∧ daysDiff p today ≤ p.notifyBeforeDays) ∧
    (∀ (p : Product) (today : Int) (fails : Attempt → Bool) (users : List User),
        daysDiff p today ≤ 0 → productSends fails users today p = []) ∧
    (∀ (p : Product) (today : Int) (fails : Attempt → Bool) (users : List User)
        (x : Attempt × Bool), x ∈ productSends fails users today p →
        strContains x.1.body (toString (Rat.ceil (daysDiff p today)))) ∧
    (eligibleB twoPointFive 0 = true ∧
      strContains (notifBody twoPointFive 0) "3" ∧
      eligibleB twoPointFiveShort 0 = false ∧
      eligibleB expiredLongLead 0 = false) := by
  refine ⟨?_, ?_, ?_, ?_⟩
  · intro p today
    unfold eligibleB
    rw [Bool.and_eq_true, decide_eq_true_eq, decide_eq_true_eq]
    exact ⟨fun h => ⟨h.2, h.1⟩, fun h => ⟨h.2, h.1⟩⟩
  · intro p today fails users h
    have he : eligibleB p today = false := by
      unfold eligibleB
      rw [decide_eq_false (not_lt.mpr h), Bool.and_false]
    unfold productSends
    rw [if_neg (by rw [he]; exact Bool.false_ne_true)]
  · intro p today fails users x hx
    unfold productSends at hx
    by_cases he : eligibleB p today = true
    · rw [if_pos he] at hx
      obtain ⟨u, hu, hxe⟩ := List.mem_map.mp hx
      refine ⟨p.name ++ " ", " din me expire hone wala hai", ?_⟩
      rw [← hxe]
      show notifBody p today = _
      unfold notifBody
      rw [String.append_assoc]
    · rw [if_neg he] at hx
      simp at hx
  · exact ⟨elig25, ⟨"Doodh ", " din me expire hone wala hai", body25⟩, eligShort, eligExpired⟩

/-- Witness: the eligibility theorem at an expired product with a huge lead
window (no sends) and at the 2.5-day product (body contains the ceiling). -/
theorem cron_eligibility_window_witness :
    productSends (fun _ => false) [tok1] 0 expiredLongLead = [] ∧
    strContains (mkSend 0 twoPointFive tok1).body
      (toString (Rat.ceil (daysDiff twoPointFive 0))) :=
  ⟨cron_eligibility_window.2.1 expiredLongLead 0 (fun _ => false) [tok1]
      (by rw [dd_expired]; norm_num),
   cron_eligibility_window.2.2.1 twoPointFive 0 (fun _ => false) [tok1]
     (mkSend 0 twoPointFive tok1, true)
     (by rw [sends25]; exact List.mem_singleton.mpr rfl)⟩

/-- Claim C3: with the transport initialized, exactly one dispatch is
attempted per (eligible product, registered device) pair — E eligible
products and D devices give E*D attempts — and which sends fail has no
effect on the attempted messages (each failure is caught inside the loop). -/
theorem cron_pair_fanout (fails : Attempt → Bool) (products : List Product)
    (users : List User) (today : Int) :
    (cronRun fails true products users today).map Prod.fst =
      (cronRun (fun _ => false) true products users today).map Prod.fst ∧
    (cronRun fails true products users today).length =
      (products.filter fun p => eligibleB p today).length * users.length := by
  constructor
  · show (cronScan fails users today products).map Prod.fst =
      (cronScan (fun _ => false) users today products).map Prod.fst
    exact cronScan_map_fst fails users today products
  · show (cronScan fails users today products).length = _
    exact cronScan_length fails users today products

/-- Claim C9: when the transport failed to initialize, a cron invocation is a
no-op — no dispatch attempts at all, whatever the products, devices, send
outcomes or current time. -/
theorem cron_guard_noop (fails : Attempt → Bool) (products : List Product)
    (users : List User) (today : Int) :
    cronRun fails false products users today = [] := rfl

